import Mathlib

set_option maxRecDepth 100000

/-
Verification of the Deep-Research-Agent core (app/agents/research_agent.py,
app/schemas/models.py, main.py) against its natural-language specification.

Modelling conventions:
* Python floats are modelled as exact rationals; the built-in round(x, 3) is
  modelled as round-half-even carried out on the exact rational value.
* Python dicts are modelled as association lists with CPython semantics:
  insertion order is preserved and replacing the value of an existing key
  keeps its position.
* JSON values produced by json.loads are modelled by the Json inductive.
  A model response that fails json.loads is modelled as Option.none, since
  _parse_json turns such a failure into an empty dict.
* A Python exception escaping a method is modelled with Except String; an
  exception that the method catches never shows up in the result type.
* External collaborators (web search, page fetch, the language model, file
  ingestion, vector store) are passed in as explicit oracle arguments at the
  call sites where the Python code invokes them.
* Lowercasing and whitespace splitting follow the ASCII behaviour of the
  corresponding Python string methods.
-/

namespace DeepResearch

/-- Round-half-even on a rational, as Python round() behaves on the ties the
claims exercise (no claim depends on binary floating point artefacts). -/
def pyRoundHalfEven (q : ℚ) : ℤ :=
  let n := ⌊q⌋
  let f := q - n
  if f < 1/2 then n
  else if 1/2 < f then n + 1
  else if n % 2 = 0 then n else n + 1

/-- Python round(x, 3) on the exact rational value. -/
def round3 (q : ℚ) : ℚ :=
  (pyRoundHalfEven (q * 1000) : ℚ) / 1000

/-- JSON values, as returned by json.loads.  Objects keep the textual order
of their keys; lookup takes the last binding, as a parsed Python dict does. -/
inductive Json where
  | null : Json
  | bool : Bool → Json
  | num : ℚ → Json
  | str : String → Json
  | arr : List Json → Json
  | obj : List (String × Json) → Json

/-- Python truthiness test "v is not None" used on JSON values. -/
def Json.isNull : Json → Bool
  | .null => true
  | _ => false

/-- Dict lookup on a parsed JSON object: the last binding of a key wins,
matching how json.loads builds a Python dict. -/
def jlookup (kvs : List (String × Json)) (k : String) : Option Json :=
  (kvs.reverse.find? (fun p => decide (p.1 = k))).map Prod.snd

/-- app/schemas/models.py EvidenceConstraints.  time_range is a str-to-int
dict (its lookup also takes the last binding). -/
structure EvidenceConstraints where
  source_types : Option (List String)
  time_range : Option (List (String × ℤ))
  quality : Option String
deriving DecidableEq

/-- Lookup in a validated time_range dict. -/
def trLookup (tr : List (String × ℤ)) (k : String) : Option ℤ :=
  (tr.reverse.find? (fun p => decide (p.1 = k))).map Prod.snd

/-- app/schemas/models.py SubQuestion. -/
structure SubQuestion where
  text : String
  priority : ℤ
  tactics : List String
  query_variants : List String
deriving DecidableEq

/-- app/schemas/models.py Plan. -/
structure Plan where
  sub_questions : List SubQuestion
  success_criteria : List String
  max_iterations : ℤ
  confidence_threshold : ℚ
  evidence_constraints : Option EvidenceConstraints
deriving DecidableEq

/-- app/schemas/models.py Evidence. -/
structure Evidence where
  url : String
  title : String
  snippet : String
  captured_at : String
  source_type : String
  relevance : ℚ
  freshness : ℚ
  trust : ℚ
  score : ℚ
deriving DecidableEq

/-- app/schemas/models.py Claim. -/
structure Claim where
  text : String
  support : List Evidence
  uncertainty : String
  confidence : ℚ
deriving DecidableEq

/-- app/schemas/models.py SubQuestionBriefing. -/
structure SubQuestionBriefing where
  sub_question : String
  claim : Claim
deriving DecidableEq

/-- app/schemas/models.py TaskSpec (audience and max_length are constants
the core never reads; they are kept for completeness). -/
structure TaskSpec where
  question : String
  audience : String
  max_length : ℤ
  evidence_constraints : Option EvidenceConstraints
deriving DecidableEq

namespace DeepResearchAgent

/-- One step of _dedupe's dict update: by_url[item.url] = item when the url
is absent or the new score is strictly higher; an existing key keeps its
position in the dict. -/
def updateByUrl : List Evidence → Evidence → List Evidence
  | [], item => [item]
  | a :: rest, item =>
      if a.url = item.url then
        (if item.score > a.score then item else a) :: rest
      else
        a :: updateByUrl rest item

/-- research_agent.py _dedupe: fold the items through the by_url dict and
return its values in insertion order. -/
def dedupe (items : List Evidence) : List Evidence :=
  items.foldl updateByUrl []

/-- The duel _dedupe plays between an incumbent dict entry and a new item
with the same url: the new item wins only with a strictly higher score. -/
def keepBetter (a b : Evidence) : Evidence :=
  if b.score > a.score then b else a

/-- Python string slicing s[:n], by code points. -/
def pyTake (s : String) (n : ℕ) : String :=
  String.mk (s.data.take n)

/-- Python str.split() with no argument: split on whitespace runs, dropping
empty pieces. -/
def pyWords (s : String) : List String :=
  (s.split Char.isWhitespace).filter (fun t => t ≠ "")

/-- Does the first character list start the second. -/
def startsWithCL : List Char → List Char → Bool
  | [], _ => true
  | _ :: _, [] => false
  | a :: as, b :: bs => a == b && startsWithCL as bs

/-- Substring search over character lists. -/
def containsCL (needle : List Char) : List Char → Bool
  | [] => startsWithCL needle []
  | b :: bs => startsWithCL needle (b :: bs) || containsCL needle bs

/-- Python substring membership, needle in haystack. -/
def containsSub (haystack needle : String) : Bool :=
  containsCL needle.toList haystack.toList

/-- research_agent.py _score_relevance: fraction of the lower-cased
whitespace-split query terms among the set of the first 400 words of the
lower-cased content, rounded to 3 decimals; 0.1 when either set is empty. -/
def scoreRelevance (query content : String) : ℚ :=
  let qt : Finset String := (pyWords query.toLower).toFinset
  let ct : Finset String := ((pyWords content.toLower).take 400).toFinset
  if qt = ∅ ∨ ct = ∅ then 1/10
  else round3 (((qt ∩ ct).card : ℚ) / ((max qt.card 1 : ℕ) : ℚ))

/-- The title/content pair returned by the fetch collaborator; the code
reads both fields with dict.get and a default, so they are kept optional. -/
structure Meta where
  title : Option String
  content : Option String

/-- research_agent.py _build_evidence.  capturedAt stands for the
datetime.utcnow().isoformat() timestamp. -/
def buildEvidence (url : String) (meta : Meta) (sourceType query capturedAt : String) :
    Evidence :=
  let content := meta.content.getD ""
  let relevance := scoreRelevance query content
  let freshness : ℚ := 3/5
  let trust : ℚ := 3/5
  { url := url
    title := meta.title.getD url
    snippet := pyTake content 200
    captured_at := capturedAt
    source_type := sourceType
    relevance := relevance
    freshness := freshness
    trust := trust
    score := round3 ((relevance + freshness + trust) / 3) }

/-- research_agent.py _infer_source_type: first keyword match over the
lower-cased url, title and first 500 characters of content. -/
def inferSourceType (url title content : String) : String :=
  let low := (url ++ " " ++ title ++ " " ++ pyTake content 500).toLower
  if containsSub low "arxiv" || containsSub low "biorxiv" || containsSub low "medrxiv" then
    "preprint"
  else if containsSub low "doi.org" || containsSub low "journal" || containsSub low "proceedings" then
    "peer_reviewed"
  else if containsSub low "wikipedia.org" || containsSub low "encyclopedia" then
    "encyclopedia"
  else if containsSub low "news" || containsSub low "press" then
    "news"
  else if containsSub low "blog" || containsSub low "medium.com" then
    "blog"
  else
    "other"

/-- The year tokens _passes_constraints collects: whitespace tokens of
url + one space + the first 500 characters of content that are four digit
characters, read as integers. -/
def extractYears (url content : String) : List ℤ :=
  ((pyWords (url ++ " " ++ pyTake content 500)).filter
      (fun t => t.toList.all Char.isDigit && t.length == 4)).map
    (fun t => (t.toNat?.getD 0 : ℤ))

/-- The first early return of _passes_constraints: the source_types list is
truthy (present and non-empty) and excludes the source type. -/
def stBlocked (source_types : Option (List String)) (sourceType : String) : Bool :=
  match source_types with
  | some l => decide (l ≠ []) && !(decide (sourceType ∈ l))
  | none => false

/-- The "start and latest < start" early return: the bound is truthy
(present and non-zero) and the latest year sits below it. -/
def boundLt (b : Option ℤ) (latest : ℤ) : Bool :=
  match b with
  | some s => decide (s ≠ 0) && decide (latest < s)
  | none => false

/-- The "end and latest > end" early return: the bound is truthy (present
and non-zero) and the latest year sits above it. -/
def boundGt (b : Option ℤ) (latest : ℤ) : Bool :=
  match b with
  | some e => decide (e ≠ 0) && decide (e < latest)
  | none => false

/-- The time_range early returns of _passes_constraints taken together: a
truthy (present, non-empty) time_range dict, at least one year token, and
the latest year violating a truthy start or end bound. -/
def timeBlocked (time_range : Option (List (String × ℤ))) (content url : String) : Bool :=
  match time_range with
  | none => false
  | some tr =>
    if tr = [] then false
    else
      match (extractYears url content).max? with
      | none => false
      | some latest =>
          boundLt (trLookup tr "start_year") latest
            || boundGt (trLookup tr "end_year") latest

/-- research_agent.py _passes_constraints, with Python truthiness written
out: an empty source_types list, an empty time_range dict and a zero bound
are all falsy and impose nothing.  The method's sequence of early False
returns is the disjunction of the two blocks. -/
def passesConstraints (c : EvidenceConstraints) (sourceType content url : String) : Bool :=
  if stBlocked c.source_types sourceType then false
  else if timeBlocked c.time_range content url then false
  else true

/-- research_agent.py _metrics, as the pair (coverage, average_confidence);
the code wraps the same two numbers in a dict. -/
def metricsOf (findings : List SubQuestionBriefing) (plan : Plan) : ℚ × ℚ :=
  if findings = [] then (0, 0)
  else
    let confidences := findings.map (fun f => f.claim.confidence)
    let covered := confidences.filter (fun c => decide (plan.confidence_threshold ≤ c))
    (round3 ((covered.length : ℚ) / ((max confidences.length 1 : ℕ) : ℚ)),
     round3 (confidences.sum / ((max confidences.length 1 : ℕ) : ℚ)))

/-- Pydantic validation of a str field value (pydantic v2 does not coerce
other JSON types to str). -/
def asStr : Json → Option String
  | .str s => some s
  | _ => none

/-- Pydantic validation of an int field value: integers (also written with
a fractional part of zero) and numeric strings are accepted, bool and
everything else rejected. -/
def asIntJ : Json → Option ℤ
  | .num q => if q.den = 1 then some q.num else none
  | .str s => s.toInt?
  | _ => none

/-- Pydantic validation of a List[str] field value. -/
def asStrList : Json → Option (List String)
  | .arr l => l.mapM asStr
  | _ => none

/-- Pydantic validation of a Dict[str, int] field value. -/
def asIntDict : Json → Option (List (String × ℤ))
  | .obj kvs => kvs.mapM (fun p => (asIntJ p.2).map (fun n => (p.1, n)))
  | _ => none

/-- Pydantic validation of an Optional field: absent or null gives None,
otherwise the inner validator runs. -/
def optField (kvs : List (String × Json)) (k : String) (f : Json → Option α) :
    Option (Option α) :=
  match jlookup kvs k with
  | none => some none
  | some .null => some none
  | some v => (f v).map some

/-- EvidenceConstraints(**kvs): validate the three optional fields, ignore
extra keys (the pydantic default), fail on a wrongly typed value. -/
def validateConstraints (kvs : List (String × Json)) : Option EvidenceConstraints :=
  match optField kvs "source_types" asStrList,
        optField kvs "time_range" asIntDict,
        optField kvs "quality" asStr with
  | some st, some tr, some q => some ⟨st, tr, q⟩
  | _, _, _ => none

/-- research_agent.py _to_constraints on an arbitrary value: a falsy value
(None, empty dict, zero, empty string, empty list, False) gives None, a
truthy non-dict raises inside the try block and is caught, a non-empty dict
is validated with the ValidationError caught.  The method never raises. -/
def toConstraintsJ : Json → Option EvidenceConstraints
  | .obj kvs => if kvs.isEmpty then none else validateConstraints kvs
  | _ => none

/-- _to_constraints including the raw = None case. -/
def toConstraints : Option Json → Option EvidenceConstraints
  | none => none
  | some j => toConstraintsJ j

/-- Python int(x) on a JSON value: truncation for numbers, strict digit
parsing for strings, 0/1 for bool, TypeError otherwise. -/
def pyInt : Json → Except String ℤ
  | .num q => .ok (if 0 ≤ q then q.floor else q.ceil)
  | .str s => match s.toInt? with
              | some n => .ok n
              | none => .error "ValueError: invalid literal for int"
  | .bool b => .ok (if b then 1 else 0)
  | _ => .error "TypeError: int() argument"

/-- Python float(x) on a JSON value.  float() also parses numeric strings;
no claim exercises that path, so a string is conservatively mapped to the
parse-failure branch together with the genuinely invalid values. -/
def pyFloat : Json → Except String ℚ
  | .num q => .ok q
  | .bool b => .ok (if b then 1 else 0)
  | _ => .error "TypeError or ValueError: float() argument"

/-- SubQuestion(**item): item must be a mapping with a str text field;
priority defaults to 1, tactics and query_variants default to []. -/
def parseSubQuestion : Json → Except String SubQuestion
  | .obj kvs => do
      let t ← (match jlookup kvs "text" with
               | some (.str s) => Except.ok s
               | _ => Except.error "ValidationError: text")
      let p ← (match jlookup kvs "priority" with
               | none => Except.ok 1
               | some v => match asIntJ v with
                           | some n => Except.ok n
                           | none => Except.error "ValidationError: priority")
      let ta ← (match jlookup kvs "tactics" with
                | none => Except.ok []
                | some v => match asStrList v with
                            | some l => Except.ok l
                            | none => Except.error "ValidationError: tactics")
      let qv ← (match jlookup kvs "query_variants" with
                | none => Except.ok []
                | some v => match asStrList v with
                            | some l => Except.ok l
                            | none => Except.error "ValidationError: query_variants")
      Except.ok ⟨t, p, ta, qv⟩
  | _ => .error "TypeError: argument after ** must be a mapping"

/-- The sub_questions comprehension: iterating a list maps the items, an
empty string or empty dict iterates zero times, any other value either is
not iterable or yields non-mapping items, raising a TypeError. -/
def parseSubQuestions : Json → Except String (List SubQuestion)
  | .arr l => l.mapM parseSubQuestion
  | .str s => if s.isEmpty then Except.ok [] else Except.error "TypeError: not a mapping"
  | .obj kvs => if kvs.isEmpty then Except.ok [] else Except.error "TypeError: not a mapping"
  | _ => .error "TypeError: not iterable"

/-- research_agent.py _plan, with the language-model call abstracted: resp
is none when the response text fails json.loads (which _parse_json turns
into an empty dict) and some j when it parses to the JSON value j.  The
Except models exceptions escaping _plan. -/
def planOf (question : String) (taskConstraints : Option EvidenceConstraints)
    (resp : Option Json) : Except String Plan :=
  let data : Json := match resp with
    | none => Json.obj []
    | some j => j
  match data with
  | .obj kvs => do
      let items ← parseSubQuestions ((jlookup kvs "sub_questions").getD (.arr []))
      let sub_questions := if items.isEmpty then [⟨question, 1, [], []⟩] else items
      let success_criteria ←
        (match asStrList ((jlookup kvs "success_criteria").getD (.arr [])) with
         | some l => Except.ok l
         | none => Except.error "ValidationError: success_criteria")
      let max_iterations ← pyInt ((jlookup kvs "max_iterations").getD (.num 2))
      let confidence_threshold ← pyFloat ((jlookup kvs "confidence_threshold").getD (.num (65/100)))
      let evidence_constraints :=
        (match toConstraints (jlookup kvs "evidence_constraints") with
         | some c => some c
         | none => taskConstraints)
      Except.ok ⟨sub_questions, success_criteria, max_iterations, confidence_threshold,
                 evidence_constraints⟩
  | _ => .error "AttributeError: object has no attribute get"

/-- JSON encoding of an optional list-of-str field value, as model_dump
renders it. -/
def encOptStrList : Option (List String) → Json
  | some l => .arr (l.map .str)
  | none => .null

/-- JSON encoding of an optional str-to-int dict field value. -/
def encOptIntDict : Option (List (String × ℤ)) → Json
  | some d => .obj (d.map (fun p => (p.1, Json.num (p.2 : ℚ))))
  | none => .null

/-- JSON encoding of an optional str field value. -/
def encOptStr : Option String → Json
  | some s => .str s
  | none => .null

/-- model_dump() of an EvidenceConstraints: the dict with all three keys,
absent optional values dumped as null. -/
def dumpConstraints (c : EvidenceConstraints) : List (String × Json) :=
  [("source_types", encOptStrList c.source_types),
   ("time_range", encOptIntDict c.time_range),
   ("quality", encOptStr c.quality)]

/-- A well-typed override dict for _merge_constraints: each field present
in the dict exactly when the option is some, with the value encoded the way
the critic's JSON would carry it. -/
def encodeOverride (st : Option (List String)) (tr : Option (List (String × ℤ)))
    (q : Option String) : List (String × Json) :=
  (match st with
   | some l => [("source_types", encOptStrList (some l))]
   | none => []) ++
  (match tr with
   | some d => [("time_range", encOptIntDict (some d))]
   | none => []) ++
  (match q with
   | some s => [("quality", encOptStr (some s))]
   | none => [])

/-- merged[k] = v on a Python dict: replace in place when the key exists,
append otherwise. -/
def dictSet (d : List (String × Json)) (k : String) (v : Json) : List (String × Json) :=
  match d with
  | [] => [(k, v)]
  | (k', v') :: t => if k' = k then (k, v) :: t else (k', v') :: dictSet t k v

/-- research_agent.py _merge_constraints.  The override argument is the
dict case of the Any-typed value (a truthy non-dict override would raise
on .items() before this logic runs and no claim exercises it).  The final
EvidenceConstraints(**merged) is outside any try block, so a wrongly typed
override value propagates a ValidationError. -/
def mergeConstraints (base : Option EvidenceConstraints)
    (override : Option (List (String × Json))) : Except String (Option EvidenceConstraints) :=
  let overrideFalsy : Bool := match override with
    | none => true
    | some [] => true
    | some (_ :: _) => false
  if base.isNone && overrideFalsy then .ok none
  else
    let merged := match base with
      | some b => dumpConstraints b
      | none => []
    let merged := (override.getD []).foldl
      (fun acc p => if p.2.isNull then acc else dictSet acc p.1 p.2) merged
    match validateConstraints merged with
    | some c => .ok (some c)
    | none => .error "ValidationError: EvidenceConstraints"

/-- A document returned by the ingest_files collaborator; app/tools/files.py
always fills both keys (title is the file name). -/
structure Doc where
  title : String
  content : String

/-- The synthetic Evidence _execute appends for one ingested document. -/
def mkLocalEvidence (capturedAt : String) (doc : Doc) : Evidence :=
  { url := doc.title
    title := doc.title
    snippet := pyTake doc.content 200
    captured_at := capturedAt
    source_type := "local_file"
    relevance := 3/5
    freshness := 1/2
    trust := 7/10
    score := 3/5 }

/-- The Notes mapping: sub-question text to gathered Evidence, as an
insertion-ordered dict. -/
abbrev Notes := List (String × List Evidence)

/-- notes[k] = v: replace in place when the key exists, append otherwise. -/
def notesSet (n : Notes) (k : String) (v : List Evidence) : Notes :=
  match n with
  | [] => [(k, v)]
  | (k', v') :: t => if k' = k then (k, v) :: t else (k', v') :: notesSet t k v

/-- notes.get(k): first (and only) binding of the key. -/
def notesGet (n : Notes) (k : String) : Option (List Evidence) :=
  match n with
  | [] => none
  | (k', v') :: t => if k' = k then some v' else notesGet t k

/-- notes.setdefault(k, []).append(e). -/
def notesAppendDefault (n : Notes) (k : String) (e : Evidence) : Notes :=
  match n with
  | [] => [(k, [e])]
  | (k', v') :: t => if k' = k then (k', v' ++ [e]) :: t else (k', v') :: notesAppendDefault t k e

/-- sorted(plan.sub_questions, key=lambda s: s.priority): stable ascending
sort, as Python sorted. -/
def sortedByPriority (subs : List SubQuestion) : List SubQuestion :=
  subs.mergeSort (fun a b => decide (a.priority ≤ b.priority))

/-- research_agent.py _execute.  gather stands for the _gather call (web
search, fetch, constraint filtering happen inside external collaborators
for the given plan constraints), docs for the ingest_files result (empty
when no file paths were supplied); the best-effort vector-store build does
not touch notes.  Each gathered entry is written dedupe-d; the local-file
evidence is appended under the original question key with no dedupe. -/
def executeNotes (plan : Plan) (question : String) (gather : SubQuestion → List Evidence)
    (docs : List Doc) (capturedAt : String) : Notes :=
  let notes := (sortedByPriority plan.sub_questions).foldl
    (fun acc sub => notesSet acc sub.text (dedupe (gather sub))) []
  docs.foldl (fun acc doc => notesAppendDefault acc question (mkLocalEvidence capturedAt doc))
    notes

/-- research_agent.py _revise, restricted to its notes update: for each
sub-question with follow-up queries, re-gather (gatherExtra stands for the
_gather call under the merged constraints) and store the dedupe of old and
new evidence; other entries are untouched. -/
def reviseNotes (plan : Plan) (notes : Notes) (followups : String → List String)
    (gatherExtra : SubQuestion → List String → List Evidence) : Notes :=
  plan.sub_questions.foldl
    (fun acc sub =>
      let extraQueries := followups sub.text
      if extraQueries = [] then acc
      else notesSet acc sub.text
        (dedupe ((notesGet acc sub.text).getD [] ++ gatherExtra sub extraQueries)))
    notes

/-- The _synthesize calls of one pass of run's for-loop body: one for the
draft and one inside _revise; the loop breaks after _revise when the
critic's follow-up map is falsy.  hasFollowups i tells whether the i-th
reflection returned a truthy follow_up_queries value. -/
def loopSynthCount : ℕ → (ℕ → Bool) → ℕ
  | 0, _ => 0
  | n + 1, hasFollowups =>
      2 + (if hasFollowups 0 then loopSynthCount n (fun i => hasFollowups (i + 1)) else 0)

/-- Total number of _synthesize calls a full run of DeepResearchAgent.run
performs: the loop runs at most max_iterations times, and the
final = final or self._synthesize(...) fallback fires exactly when the
loop body never ran (a Briefing instance is always truthy). -/
def runSynthCount (plan : Plan) (hasFollowups : ℕ → Bool) : ℕ :=
  loopSynthCount plan.max_iterations.toNat hasFollowups
    + (if plan.max_iterations.toNat = 0 then 1 else 0)

/-- main.py: the --constraints argument; the outer option is whether the
flag was given a non-empty string, the inner one whether json.loads
succeeded.  Only a parse failure is fatal (SystemExit). -/
def mainConstraints : Option (Option Json) → Except String (Option Json)
  | none => .ok none
  | some none => .error "Invalid JSON in --constraints"
  | some (some j) => .ok (some j)

/-- The TaskSpec that run builds from the question and the raw constraints
value (audience and max_length keep their defaults). -/
def mkTask (question : String) (constraints : Option Json) : TaskSpec :=
  ⟨question, "general reader", 400, toConstraints constraints⟩

/-- Is an Except value a normal return. -/
def isOkE : Except String α → Bool
  | .ok _ => true
  | .error _ => false

end DeepResearchAgent

namespace ClaimReading

open DeepResearchAgent

/-- Modelled from the claim's words, for the refinement comparison of C7:
dropped exactly when the source_type is not in the source_types list, or
when the latest 4-digit year token of url+content (all of it) falls outside
the time_range start/end bounds; no year token passes. -/
def dropOriginal (c : EvidenceConstraints) (sourceType content url : String) : Prop :=
  (∃ l, c.source_types = some l ∧ sourceType ∉ l) ∨
  (∃ tr, c.time_range = some tr ∧
    ∃ latest, (((pyWords (url ++ " " ++ content)).filter
        (fun t => t.toList.all Char.isDigit && t.length == 4)).map
        (fun t => (t.toNat?.getD 0 : ℤ))).max? = some latest ∧
      ((∃ s, trLookup tr "start_year" = some s ∧ latest < s) ∨
       (∃ e, trLookup tr "end_year" = some e ∧ e < latest)))

/-- The amended drop condition for C7, matching the code: the source_types
list must be present and non-empty, the time_range dict present and
non-empty, the years come from url plus the first 500 characters of
content, and a bound is enforced only when present and non-zero. -/
def dropAmended (c : EvidenceConstraints) (sourceType content url : String) : Prop :=
  (∃ l, c.source_types = some l ∧ l ≠ [] ∧ sourceType ∉ l) ∨
  (∃ tr, c.time_range = some tr ∧ tr ≠ [] ∧
    ∃ latest, (extractYears url content).max? = some latest ∧
      ((∃ s, trLookup tr "start_year" = some s ∧ s ≠ 0 ∧ latest < s) ∨
       (∃ e, trLookup tr "end_year" = some e ∧ e ≠ 0 ∧ e < latest)))

end ClaimReading

/-! Helper lemmas. -/

theorem pyRoundHalfEven_ge (a : ℤ) (q : ℚ) (h : (a : ℚ) ≤ q) : a ≤ pyRoundHalfEven q := by
  have hn : a ≤ ⌊q⌋ := Int.le_floor.mpr h
  simp only [pyRoundHalfEven]
  split_ifs <;> omega

theorem pyRoundHalfEven_le (b : ℤ) (q : ℚ) (h : q ≤ (b : ℚ)) : pyRoundHalfEven q ≤ b := by
  have h1 : (⌊q⌋ : ℚ) ≤ q := Int.floor_le q
  have hnb : ⌊q⌋ ≤ b := by exact_mod_cast h1.trans h
  have hstrict : q - (⌊q⌋ : ℚ) < 1/2 ∨ (⌊q⌋ : ℚ) < q := by
    by_cases hc : q - (⌊q⌋ : ℚ) < 1/2
    · exact Or.inl hc
    · right; push_neg at hc; linarith
  have hltb : (⌊q⌋ : ℚ) < q → ⌊q⌋ + 1 ≤ b := by
    intro hlt
    have : ⌊q⌋ < b := by exact_mod_cast hlt.trans_le h
    omega
  simp only [pyRoundHalfEven]
  split_ifs with hf1 hf2 hf3
  · exact hnb
  · exact hltb (by linarith)
  · exact hnb
  · rcases hstrict with hs | hs
    · exact absurd hs hf1
    · exact hltb hs

theorem round3_nonneg {q : ℚ} (h : 0 ≤ q) : 0 ≤ round3 q := by
  have h0 : (0 : ℤ) ≤ pyRoundHalfEven (q * 1000) :=
    pyRoundHalfEven_ge 0 _ (by push_cast; linarith)
  have h0q : (0 : ℚ) ≤ (pyRoundHalfEven (q * 1000) : ℚ) := by exact_mod_cast h0
  unfold round3
  exact div_nonneg h0q (by norm_num)

theorem round3_le_one {q : ℚ} (h : q ≤ 1) : round3 q ≤ 1 := by
  have h1 : pyRoundHalfEven (q * 1000) ≤ 1000 :=
    pyRoundHalfEven_le 1000 _ (by push_cast; linarith)
  unfold round3
  rw [div_le_one (by norm_num)]
  exact_mod_cast h1

namespace DeepResearchAgent

theorem scoreRelevance_nonneg (query content : String) : 0 ≤ scoreRelevance query content := by
  unfold scoreRelevance
  dsimp only
  split_ifs
  · norm_num
  · apply round3_nonneg
    apply div_nonneg <;> positivity

theorem scoreRelevance_le_one (query content : String) : scoreRelevance query content ≤ 1 := by
  unfold scoreRelevance
  dsimp only
  split_ifs
  · norm_num
  · apply round3_le_one
    rw [div_le_one (by positivity)]
    have hsub := Finset.card_le_card
      (show (pyWords query.toLower).toFinset ∩ ((pyWords content.toLower).take 400).toFinset
          ⊆ (pyWords query.toLower).toFinset from Finset.inter_subset_left)
    have hmax : (pyWords query.toLower).toFinset.card ≤
        max (pyWords query.toLower).toFinset.card 1 := le_max_left _ _
    exact_mod_cast hsub.trans hmax

theorem find?_updateByUrl (acc : List Evidence) (item : Evidence) (u : String) :
    (updateByUrl acc item).find? (fun e => decide (e.url = u))
      = if item.url = u then
          (match acc.find? (fun e => decide (e.url = u)) with
           | none => some item
           | some a => some (keepBetter a item))
        else acc.find? (fun e => decide (e.url = u)) := by
  induction acc with
  | nil =>
      by_cases hiu : item.url = u
      · simp [updateByUrl, List.find?, hiu]
      · simp [updateByUrl, List.find?, hiu]
  | cons a rest ih =>
      simp only [updateByUrl]
      by_cases hau : a.url = item.url
      · rw [if_pos hau]
        by_cases hs : item.score > a.score
        · rw [if_pos hs]
          by_cases hiu : item.url = u
          · rw [if_pos hiu]
            rw [List.find?_cons_of_pos _ (by simp [hiu]),
                List.find?_cons_of_pos _ (by simp [hau, hiu])]
            simp [keepBetter, hs]
          · rw [if_neg hiu]
            have hau' : ¬ a.url = u := fun h => hiu (hau.symm.trans h)
            rw [List.find?_cons_of_neg _ (by simp [hiu]),
                List.find?_cons_of_neg _ (by simp [hau'])]
        · rw [if_neg hs]
          by_cases hiu : item.url = u
          · rw [if_pos hiu]
            have hau' : a.url = u := hau.trans hiu
            rw [List.find?_cons_of_pos _ (by simp [hau'])]
            simp [keepBetter, hs]
          · rw [if_neg hiu]
      · rw [if_neg hau]
        by_cases hax : a.url = u
        · rw [List.find?_cons_of_pos _ (by simp [hax])]
          by_cases hiu : item.url = u
          · exact absurd (hax.trans hiu.symm) hau
          · rw [if_neg hiu, List.find?_cons_of_pos _ (by simp [hax])]
        · rw [List.find?_cons_of_neg _ (by simp [hax]), ih]
          by_cases hiu : item.url = u
          · rw [if_pos hiu, if_pos hiu, List.find?_cons_of_neg _ (by simp [hax])]
          · rw [if_neg hiu, if_neg hiu, List.find?_cons_of_neg _ (by simp [hax])]

theorem mem_map_url_updateByUrl (acc : List Evidence) (item : Evidence) (x : String)
    (h : x ∈ (updateByUrl acc item).map Evidence.url) :
    x ∈ acc.map Evidence.url ∨ x = item.url := by
  induction acc with
  | nil =>
      simp only [updateByUrl, List.map_cons, List.map_nil, List.mem_singleton] at h
      exact Or.inr h
  | cons a rest ih =>
      simp only [updateByUrl] at h
      by_cases hau : a.url = item.url
      · rw [if_pos hau] at h
        by_cases hs : item.score > a.score
        · rw [if_pos hs] at h
          simp only [List.map_cons, List.mem_cons] at h ⊢
          rcases h with rfl | h
          · exact Or.inr rfl
          · exact Or.inl (Or.inr h)
        · rw [if_neg hs] at h
          exact Or.inl h
      · rw [if_neg hau] at h
        simp only [List.map_cons, List.mem_cons] at h ⊢
        rcases h with rfl | h
        · exact Or.inl (Or.inl rfl)
        · rcases ih h with h' | h'
          · exact Or.inl (Or.inr h')
          · exact Or.inr h'

theorem nodup_map_url_updateByUrl (acc : List Evidence) (item : Evidence)
    (h : (acc.map Evidence.url).Nodup) :
    ((updateByUrl acc item).map Evidence.url).Nodup := by
  induction acc with
  | nil => simp [updateByUrl]
  | cons a rest ih =>
      simp only [List.map_cons, List.nodup_cons] at h
      obtain ⟨ha, hr⟩ := h
      simp only [updateByUrl]
      by_cases hau : a.url = item.url
      · rw [if_pos hau]
        by_cases hs : item.score > a.score
        · rw [if_pos hs]
          simp only [List.map_cons, List.nodup_cons]
          exact ⟨by rw [← hau]; exact ha, hr⟩
        · rw [if_neg hs]
          simp only [List.map_cons, List.nodup_cons]
          exact ⟨ha, hr⟩
      · rw [if_neg hau]
        simp only [List.map_cons, List.nodup_cons]
        refine ⟨?_, ih hr⟩
        intro hmem
        rcases mem_map_url_updateByUrl rest item a.url hmem with h' | h'
        · exact ha h'
        · exact hau h'

theorem nodup_map_url_dedupe (l : List Evidence) : ((dedupe l).map Evidence.url).Nodup := by
  have h : ∀ acc, (acc.map Evidence.url).Nodup →
      ((l.foldl updateByUrl acc).map Evidence.url).Nodup := by
    induction l with
    | nil => intro acc h; simpa using h
    | cons i t ih => intro acc h; exact ih _ (nodup_map_url_updateByUrl _ _ h)
  exact h [] (by simp)

theorem mem_map_url_iff_find? (L : List Evidence) (u : String) :
    u ∈ L.map Evidence.url ↔ (L.find? (fun e => decide (e.url = u))).isSome := by
  rw [show ((L.find? (fun e => decide (e.url = u))).isSome : Prop)
      = ((L.find? (fun e => decide (e.url = u))).isSome = true) from rfl,
    List.find?_isSome]
  simp only [List.mem_map]
  constructor
  · rintro ⟨e, he, rfl⟩; exact ⟨e, he, by simp⟩
  · rintro ⟨e, he, hp⟩
    exact ⟨e, he, by simpa using hp⟩

theorem find?_foldl_updateByUrl (l : List Evidence) (acc : List Evidence) (u : String) :
    (l.foldl updateByUrl acc).find? (fun e => decide (e.url = u))
      = match acc.find? (fun e => decide (e.url = u)) with
        | some a => some ((l.filter (fun e => decide (e.url = u))).foldl keepBetter a)
        | none =>
          match l.filter (fun e => decide (e.url = u)) with
          | [] => none
          | x :: xs => some (xs.foldl keepBetter x) := by
  induction l generalizing acc with
  | nil => cases hacc : acc.find? (fun e => decide (e.url = u)) <;> simp [hacc]
  | cons i t ih =>
      rw [List.foldl_cons, ih, find?_updateByUrl]
      by_cases hiu : i.url = u
      · rw [if_pos hiu, List.filter_cons_of_pos (by simp [hiu])]
        cases hacc : acc.find? (fun e => decide (e.url = u)) with
        | none => simp
        | some a => simp
      · rw [if_neg hiu, List.filter_cons_of_neg (by simp [hiu])]

theorem find?_dedupe (l : List Evidence) (u : String) :
    (dedupe l).find? (fun e => decide (e.url = u))
      = match l.filter (fun e => decide (e.url = u)) with
        | [] => none
        | x :: xs => some (xs.foldl keepBetter x) := by
  unfold dedupe
  rw [find?_foldl_updateByUrl]
  simp [List.find?]

theorem le_score_foldl_keepBetter (x : Evidence) (xs : List Evidence) :
    x.score ≤ (xs.foldl keepBetter x).score := by
  induction xs generalizing x with
  | nil => simp
  | cons b t ih =>
      rw [List.foldl_cons]
      refine le_trans ?_ (ih (keepBetter x b))
      unfold keepBetter
      split_ifs with h
      · linarith
      · exact le_refl _

theorem foldl_keepBetter_decomp (xs : List Evidence) (x : Evidence) :
    ∃ g₁ g₂, x :: xs = g₁ ++ (xs.foldl keepBetter x) :: g₂
      ∧ (∀ y ∈ g₁, y.score < (xs.foldl keepBetter x).score)
      ∧ (∀ y ∈ g₂, y.score ≤ (xs.foldl keepBetter x).score) := by
  induction xs generalizing x with
  | nil => exact ⟨[], [], by simp, by simp, by simp⟩
  | cons b t ih =>
      rw [List.foldl_cons]
      by_cases hs : b.score > x.score
      · have hkb : keepBetter x b = b := if_pos hs
        rw [hkb]
        obtain ⟨g₁, g₂, heq, h₁, h₂⟩ := ih b
        refine ⟨x :: g₁, g₂, ?_, ?_, h₂⟩
        · rw [List.cons_append, ← heq]
        · intro y hy
          rcases List.mem_cons.mp hy with rfl | hy'
          · exact lt_of_lt_of_le hs (le_score_foldl_keepBetter b t)
          · exact h₁ y hy'
      · have hkb : keepBetter x b = x := if_neg hs
        rw [hkb]
        have hble : b.score ≤ x.score := le_of_not_lt hs
        have hxk : x.score ≤ (t.foldl keepBetter x).score := le_score_foldl_keepBetter x t
        obtain ⟨g₁, g₂, heq, h₁, h₂⟩ := ih x
        rcases g₁ with _ | ⟨y, g₁t⟩
        · simp only [List.nil_append] at heq
          have hxfold : x = t.foldl keepBetter x := (List.cons.injEq .. ▸ heq).1
          have htg : t = g₂ := (List.cons.injEq .. ▸ heq).2
          refine ⟨[], b :: g₂, ?_, by simp, ?_⟩
          · simp only [List.nil_append]
            rw [← hxfold, ← htg]
          · intro y hy
            rcases List.mem_cons.mp hy with rfl | hy'
            · rw [← hxfold]; exact hble
            · exact h₂ y hy'
        · have hy : y = x := (List.cons.injEq .. ▸ heq).1.symm
          have ht : t = g₁t ++ (t.foldl keepBetter x) :: g₂ := (List.cons.injEq .. ▸ heq).2
          have hxin : x ∈ y :: g₁t := by rw [hy]; exact List.mem_cons_self _ _
          have hxlt : x.score < (t.foldl keepBetter x).score := h₁ x hxin
          refine ⟨x :: b :: g₁t, g₂, ?_, ?_, h₂⟩
          · rw [List.cons_append, List.cons_append, ← ht]
          · intro z hz
            rcases List.mem_cons.mp hz with rfl | hz'
            · exact hxlt
            · rcases List.mem_cons.mp hz' with rfl | hz''
              · exact lt_of_le_of_lt hble hxlt
              · exact h₁ z (List.mem_cons_of_mem y hz'')

theorem mem_notesSet (n : Notes) (k : String) (v : List Evidence) (p : String × List Evidence)
    (hp : p ∈ notesSet n k v) : p = (k, v) ∨ p ∈ n := by
  induction n with
  | nil => simpa [notesSet] using hp
  | cons a t ih =>
      simp only [notesSet] at hp
      by_cases hk : a.1 = k
      · rw [if_pos hk] at hp
        rcases List.mem_cons.mp hp with rfl | hp'
        · exact Or.inl rfl
        · exact Or.inr (List.mem_cons_of_mem a hp')
      · rw [if_neg hk] at hp
        rcases List.mem_cons.mp hp with rfl | hp'
        · exact Or.inr (List.mem_cons_self  ..)
        · rcases ih hp' with h' | h'
          · exact Or.inl h'
          · exact Or.inr (List.mem_cons_of_mem a h')

theorem foldl_notesSet_dedupe_nodup (subs : List SubQuestion)
    (g : SubQuestion → List Evidence) (acc : Notes)
    (hacc : ∀ p ∈ acc, ((p.2.map Evidence.url)).Nodup) :
    ∀ p ∈ subs.foldl (fun acc sub => notesSet acc sub.text (dedupe (g sub))) acc,
      ((p.2.map Evidence.url)).Nodup := by
  induction subs generalizing acc with
  | nil => simpa using hacc
  | cons s t ih =>
      rw [List.foldl_cons]
      refine ih _ ?_
      intro p hp
      rcases mem_notesSet _ _ _ _ hp with rfl | hp'
      · exact nodup_map_url_dedupe _
      · exact hacc p hp'

theorem reviseNotes_nodup_aux (subs : List SubQuestion) (followups : String → List String)
    (gatherExtra : SubQuestion → List String → List Evidence) (acc : Notes)
    (hacc : ∀ p ∈ acc, ((p.2.map Evidence.url)).Nodup) :
    ∀ p ∈ subs.foldl
        (fun acc sub =>
          let extraQueries := followups sub.text
          if extraQueries = [] then acc
          else notesSet acc sub.text
            (dedupe ((notesGet acc sub.text).getD [] ++ gatherExtra sub extraQueries)))
        acc,
      ((p.2.map Evidence.url)).Nodup := by
  induction subs generalizing acc with
  | nil => simpa using hacc
  | cons s t ih =>
      rw [List.foldl_cons]
      refine ih _ ?_
      dsimp only
      by_cases hq : followups s.text = []
      · rw [if_pos hq]; exact hacc
      · rw [if_neg hq]
        intro p hp
        rcases mem_notesSet _ _ _ _ hp with rfl | hp'
        · exact nodup_map_url_dedupe _
        · exact hacc p hp'

theorem mapM_loop_asStr_encode (l : List String) (acc : List String) :
    List.mapM.loop asStr (l.map Json.str) acc = some (acc.reverse ++ l) := by
  induction l generalizing acc with
  | nil => simp [List.mapM.loop]
  | cons a t ih => simp [List.mapM.loop, asStr, Bind.bind, Option.bind, ih]

theorem asStrList_encode (l : List String) :
    asStrList (Json.arr (l.map Json.str)) = some l := by
  simp [asStrList, List.mapM, mapM_loop_asStr_encode]

theorem asIntJ_encode (n : ℤ) : asIntJ (Json.num (n : ℚ)) = some n := by
  simp [asIntJ, Rat.den_intCast, Rat.num_intCast]

theorem mapM_loop_asIntDict_encode (d : List (String × ℤ)) (acc : List (String × ℤ)) :
    List.mapM.loop (fun p => (asIntJ p.2).map (fun n => (p.1, n)))
        (d.map (fun p => (p.1, Json.num (p.2 : ℚ)))) acc
      = some (acc.reverse ++ d) := by
  induction d generalizing acc with
  | nil => simp [List.mapM.loop]
  | cons a t ih => simp [List.mapM.loop, asIntJ_encode, Bind.bind, Option.bind, ih]

theorem asIntDict_encode (d : List (String × ℤ)) :
    asIntDict (Json.obj (d.map (fun p => (p.1, Json.num (p.2 : ℚ))))) = some d := by
  simp [asIntDict, List.mapM, mapM_loop_asIntDict_encode]

theorem validateConstraints_enc (st : Option (List String))
    (tr : Option (List (String × ℤ))) (q : Option String) :
    validateConstraints
        [("source_types", encOptStrList st), ("time_range", encOptIntDict tr),
         ("quality", encOptStr q)]
      = some ⟨st, tr, q⟩ := by
  cases st <;> cases tr <;> cases q <;>
    simp [validateConstraints, optField, jlookup, encOptStrList, encOptIntDict, encOptStr,
      asStrList_encode, asIntDict_encode, asStr]

theorem planOf_none (q : String) (tc : Option EvidenceConstraints) :
    planOf q tc none = Except.ok ⟨[⟨q, 1, [], []⟩], [], 2, 65/100, tc⟩ := by
  with_unfolding_all rfl

theorem pyInt_two : pyInt (Json.num 2) = Except.ok 2 := by
  with_unfolding_all rfl

/-! Claim theorems. -/

/-- C2: _dedupe keeps exactly one Evidence per distinct url appearing in
the input, and the item it keeps for a url is the first-encountered item
of maximal score among the items with that url: all the group's items
before it score strictly lower (so ties keep the first) and all after it
score no higher. -/
theorem C2_dedupe_spec (l : List Evidence) :
    ((dedupe l).map Evidence.url).Nodup
    ∧ (∀ u, u ∈ (dedupe l).map Evidence.url ↔ ∃ e ∈ l, e.url = u)
    ∧ ∀ u k, (dedupe l).find? (fun e => decide (e.url = u)) = some k →
        ∃ g₁ g₂, l.filter (fun e => decide (e.url = u)) = g₁ ++ k :: g₂
          ∧ (∀ y ∈ g₁, y.score < k.score) ∧ (∀ y ∈ g₂, y.score ≤ k.score) := by
  refine ⟨nodup_map_url_dedupe l, ?_, ?_⟩
  · intro u
    rw [mem_map_url_iff_find?, find?_dedupe]
    cases hf : l.filter (fun e => decide (e.url = u)) with
    | nil =>
        rw [List.filter_eq_nil_iff] at hf
        constructor
        · intro h; simp at h
        · rintro ⟨e, he, hu⟩
          exact absurd (by simpa using hu) (hf e he)
    | cons x xs =>
        constructor
        · intro _
          have hx : x ∈ l.filter (fun e => decide (e.url = u)) :=
            hf ▸ List.mem_cons_self x xs
          obtain ⟨hxl, hxp⟩ := List.mem_filter.mp hx
          exact ⟨x, hxl, by simpa using hxp⟩
        · intro _; simp
  · intro u k hk
    rw [find?_dedupe] at hk
    cases hf : l.filter (fun e => decide (e.url = u)) with
    | nil => rw [hf] at hk; cases hk
    | cons x xs =>
        rw [hf] at hk
        have hk' : xs.foldl keepBetter x = k := by injection hk
        obtain ⟨g₁, g₂, heq, h₁, h₂⟩ := foldl_keepBetter_decomp xs x
        rw [hk'] at heq h₁ h₂
        exact ⟨g₁, g₂, heq, h₁, h₂⟩

/-- Closed instance of C2: on two items with the same url and scores 0.5
and 0.75, the kept item is the higher-scoring second one. -/
theorem C2_dedupe_spec_witness :
    ∃ g₁ g₂,
      ([(⟨"u", "a", "", "", "", 0, 0, 0, 1/2⟩ : Evidence),
        (⟨"u", "b", "", "", "", 0, 0, 0, 3/4⟩ : Evidence)].filter
          (fun e => decide (e.url = "u")))
        = g₁ ++ (⟨"u", "b", "", "", "", 0, 0, 0, 3/4⟩ : Evidence) :: g₂
      ∧ (∀ y ∈ g₁, y.score < (3/4 : ℚ)) ∧ (∀ y ∈ g₂, y.score ≤ (3/4 : ℚ)) :=
  (C2_dedupe_spec _).2.2 "u" _ (by with_unfolding_all rfl)

/-- C1 as stated is false: with max_iterations = 1 and a critic returning
no follow-ups, run calls _synthesize twice (the draft and the re-synthesis
inside _revise), exceeding the claimed bound of one. -/
theorem C1_counterexample :
    ¬ (runSynthCount ⟨[], [], 1, 13/20, none⟩ (fun _ => false) ≤ 1) := by
  with_unfolding_all decide

theorem loopSynthCount_le (n : ℕ) (fb : ℕ → Bool) : loopSynthCount n fb ≤ 2 * n := by
  induction n generalizing fb with
  | zero => simp [loopSynthCount]
  | succ m ih =>
      simp only [loopSynthCount]
      split_ifs with h
      · have := ih (fun i => fb (i + 1))
        omega
      · omega

/-- C1 amended: for every Plan with max_iterations = N (N at least 1), a
full run performs at most 2N _synthesize calls — two per loop iteration
(the draft and the one inside _revise) — however many follow-up queries the
critic returns. -/
theorem C1_synth_bound (plan : Plan) (hasFollowups : ℕ → Bool)
    (h : 1 ≤ plan.max_iterations) :
    (runSynthCount plan hasFollowups : ℤ) ≤ 2 * plan.max_iterations := by
  have h1 : loopSynthCount plan.max_iterations.toNat hasFollowups
      ≤ 2 * plan.max_iterations.toNat := loopSynthCount_le _ _
  have h2 : ¬ plan.max_iterations.toNat = 0 := by omega
  unfold runSynthCount
  rw [if_neg h2]
  omega

/-- Closed instance of C1's amended bound at max_iterations = 1. -/
theorem C1_synth_bound_witness :
    (1 : ℤ) ≤ (⟨[], [], 1, 13/20, none⟩ : Plan).max_iterations ∧
    (runSynthCount ⟨[], [], 1, 13/20, none⟩ (fun _ => true) : ℤ)
      ≤ 2 * (⟨[], [], 1, 13/20, none⟩ : Plan).max_iterations :=
  ⟨le_refl 1, C1_synth_bound _ _ (le_refl 1)⟩

/-- C4: a response with no parseable sub-questions (unparseable JSON, or a
JSON object whose sub_questions entry is absent or the empty list) yields a
Plan whose only SubQuestion is the original question at priority 1; when
max_iterations and confidence_threshold are absent from the parsed object,
they default to 2 and 0.65. -/
theorem C4_plan_fallback_defaults (q : String) (tc : Option EvidenceConstraints)
    (resp : Option Json) (p : Plan)
    (hsub : resp = none ∨ ∃ kvs, resp = some (Json.obj kvs) ∧
      (jlookup kvs "sub_questions" = none ∨ jlookup kvs "sub_questions" = some (Json.arr [])))
    (hok : planOf q tc resp = Except.ok p) :
    p.sub_questions = [⟨q, 1, [], []⟩]
    ∧ ((resp = none ∨ ∃ kvs, resp = some (Json.obj kvs) ∧ jlookup kvs "max_iterations" = none)
        → p.max_iterations = 2)
    ∧ ((resp = none ∨ ∃ kvs, resp = some (Json.obj kvs)
          ∧ jlookup kvs "confidence_threshold" = none)
        → p.confidence_threshold = 65/100) := by
  rcases hsub with rfl | ⟨kvs, rfl, hsubk⟩
  · rw [planOf_none] at hok
    simp only [Except.ok.injEq] at hok
    subst hok
    exact ⟨rfl, fun _ => rfl, fun _ => rfl⟩
  · have hsub' : (jlookup kvs "sub_questions").getD (Json.arr []) = Json.arr [] := by
      rcases hsubk with h | h <;> simp [h]
    simp only [planOf] at hok
    rw [hsub'] at hok
    simp only [parseSubQuestions, List.mapM_nil, Bind.bind, Except.bind, pure, Except.pure,
      List.isEmpty_nil, if_true] at hok
    cases hsc : asStrList ((jlookup kvs "success_criteria").getD (Json.arr [])) with
    | none => rw [hsc] at hok; simp at hok
    | some sc =>
        rw [hsc] at hok
        cases hmi : pyInt ((jlookup kvs "max_iterations").getD (Json.num 2)) with
        | error e => rw [hmi] at hok; simp at hok
        | ok mi =>
            rw [hmi] at hok
            cases hct : pyFloat ((jlookup kvs "confidence_threshold").getD (Json.num (65/100))) with
            | error e => rw [hct] at hok; simp at hok
            | ok ct =>
                rw [hct] at hok
                simp only [Except.ok.injEq] at hok
                subst hok
                refine ⟨rfl, ?_, ?_⟩
                · rintro (hc | ⟨kvs', heq, hmiss⟩)
                  · cases hc
                  · simp only [Option.some.injEq, Json.obj.injEq] at heq
                    subst heq
                    rw [hmiss] at hmi
                    simp only [Option.getD_none, pyInt_two, Except.ok.injEq] at hmi
                    exact hmi.symm
                · rintro (hc | ⟨kvs', heq, hmiss⟩)
                  · cases hc
                  · simp only [Option.some.injEq, Json.obj.injEq] at heq
                    subst heq
                    rw [hmiss] at hct
                    simp only [Option.getD_none, pyFloat, Except.ok.injEq] at hct
                    exact hct.symm

/-- Closed instance of C4 at the empty JSON object. -/
theorem C4_plan_fallback_defaults_witness :
    ∃ p, planOf "q" none (some (Json.obj [])) = Except.ok p
      ∧ p.sub_questions = [⟨"q", 1, [], []⟩]
      ∧ p.max_iterations = 2
      ∧ p.confidence_threshold = 65/100 := by
  refine ⟨⟨[⟨"q", 1, [], []⟩], [], 2, 65/100, none⟩, by with_unfolding_all rfl, ?_⟩
  have h := C4_plan_fallback_defaults "q" none (some (Json.obj [])) _
    (Or.inr ⟨[], rfl, Or.inl (by with_unfolding_all rfl)⟩) (by with_unfolding_all rfl)
  exact ⟨h.1, h.2.1 (Or.inr ⟨[], rfl, by with_unfolding_all rfl⟩),
    h.2.2 (Or.inr ⟨[], rfl, by with_unfolding_all rfl⟩)⟩

/-- C5 as stated is false: two ingested documents with the same file name
become two Evidence with the same url appended (without dedupe) to the
Notes entry under the original question. -/
theorem C5_counterexample :
    ¬ ((((notesGet (executeNotes ⟨[⟨"s", 1, [], []⟩], [], 2, 13/20, none⟩ "q" (fun _ => [])
        [⟨"a.txt", "x"⟩, ⟨"a.txt", "y"⟩] "ts") "q").getD []).map Evidence.url)).Nodup := by
  with_unfolding_all decide

/-- C5 amended: every Notes entry written by the web-gathering part of
_execute (that is, when no local documents are ingested) has pairwise
distinct urls, and _revise preserves that invariant, re-deduplicating every
entry it updates; only the local-file branch can append a duplicate url. -/
theorem C5_notes_nodup :
    (∀ (plan : Plan) (question : String) (gather : SubQuestion → List Evidence)
        (capturedAt : String) (p : String × List Evidence),
        p ∈ executeNotes plan question gather [] capturedAt →
        ((p.2.map Evidence.url)).Nodup)
    ∧ (∀ (plan : Plan) (notes : Notes) (followups : String → List String)
        (gatherExtra : SubQuestion → List String → List Evidence),
        (∀ p ∈ notes, ((p.2.map Evidence.url)).Nodup) →
        ∀ p ∈ reviseNotes plan notes followups gatherExtra,
          ((p.2.map Evidence.url)).Nodup) := by
  constructor
  · intro plan question gather capturedAt p hp
    have hex : executeNotes plan question gather [] capturedAt
        = (sortedByPriority plan.sub_questions).foldl
            (fun acc sub => notesSet acc sub.text (dedupe (gather sub))) [] := by
      simp [executeNotes]
    rw [hex] at hp
    exact foldl_notesSet_dedupe_nodup _ _ [] (by simp) p hp
  · intro plan notes followups gatherExtra hacc p hp
    exact reviseNotes_nodup_aux _ _ _ _ hacc p hp

/-- Closed instance of C5's amended invariant: one sub-question, one
gathered item, no files. -/
theorem C5_notes_nodup_witness :
    (((("s", [(⟨"u", "t", "", "", "", 0, 0, 0, 1⟩ : Evidence)]) :
        String × List Evidence).2.map Evidence.url)).Nodup :=
  C5_notes_nodup.1 ⟨[⟨"s", 1, [], []⟩], [], 2, 13/20, none⟩ "q"
    (fun _ => [⟨"u", "t", "", "", "", 0, 0, 0, 1⟩]) "ts"
    ("s", [⟨"u", "t", "", "", "", 0, 0, 0, 1⟩]) (by with_unfolding_all decide)

/-- C6: every Evidence built by the gatherer has its relevance from
_score_relevance on the query and fetched content, freshness and trust
fixed at 0.6, score equal to round((relevance + freshness + trust)/3, 3),
and that score lies in the closed interval from 0 to 1. -/
theorem C6_build_evidence_score (url : String) (meta : Meta)
    (sourceType query capturedAt : String) :
    (buildEvidence url meta sourceType query capturedAt).relevance
        = scoreRelevance query (meta.content.getD "") ∧
    (buildEvidence url meta sourceType query capturedAt).freshness = 3/5 ∧
    (buildEvidence url meta sourceType query capturedAt).trust = 3/5 ∧
    (buildEvidence url meta sourceType query capturedAt).score
        = round3 (((buildEvidence url meta sourceType query capturedAt).relevance
            + (buildEvidence url meta sourceType query capturedAt).freshness
            + (buildEvidence url meta sourceType query capturedAt).trust) / 3) ∧
    0 ≤ (buildEvidence url meta sourceType query capturedAt).score ∧
    (buildEvidence url meta sourceType query capturedAt).score ≤ 1 := by
  refine ⟨rfl, rfl, rfl, rfl, ?_, ?_⟩
  · show 0 ≤ round3 ((scoreRelevance query (meta.content.getD "") + 3/5 + 3/5) / 3)
    apply round3_nonneg
    have h0 := scoreRelevance_nonneg query (meta.content.getD "")
    linarith
  · show round3 ((scoreRelevance query (meta.content.getD "") + 3/5 + 3/5) / 3) ≤ 1
    apply round3_le_one
    have h1 := scoreRelevance_le_one query (meta.content.getD "")
    linarith

/-- C3 as stated is false: a response that is valid JSON but not an object
(here, an empty JSON array) makes _plan call .get on a list, raising an
AttributeError that nothing catches. -/
theorem C3_counterexample :
    isOkE (planOf "q" none (some (Json.arr []))) = false := by
  with_unfolding_all rfl

/-- C3 amended: only a json.loads failure is recovered locally — _plan
turns it into the fallback Plan (single sub-question equal to the question,
priority 1, the defaults, the task constraints) and does not raise; a
response that parses to JSON of an unexpected shape can still raise. -/
theorem C3_plan_parse_failure_fallback (q : String) (tc : Option EvidenceConstraints) :
    planOf q tc none = Except.ok ⟨[⟨q, 1, [], []⟩], [], 2, 65/100, tc⟩ :=
  planOf_none q tc

/-- C7 as stated is false: under constraints with an empty source_types
list the claim's reading drops a "blog" item (it is not in the list), but
the code treats the empty list as falsy and keeps everything. -/
theorem C7_counterexample :
    passesConstraints ⟨some [], none, none⟩ "blog" "" "" = true
    ∧ ClaimReading.dropOriginal ⟨some [], none, none⟩ "blog" "" "" := by
  constructor
  · with_unfolding_all rfl
  · exact Or.inl ⟨[], rfl, by simp⟩

theorem stBlocked_iff (o : Option (List String)) (st : String) :
    stBlocked o st = true ↔ ∃ l, o = some l ∧ l ≠ [] ∧ st ∉ l := by
  cases o <;> simp [stBlocked]

theorem boundLt_iff (b : Option ℤ) (latest : ℤ) :
    boundLt b latest = true ↔ ∃ s, b = some s ∧ s ≠ 0 ∧ latest < s := by
  cases b <;> simp [boundLt]

theorem boundGt_iff (b : Option ℤ) (latest : ℤ) :
    boundGt b latest = true ↔ ∃ e, b = some e ∧ e ≠ 0 ∧ e < latest := by
  cases b <;> simp [boundGt]

theorem timeBlocked_iff (o : Option (List (String × ℤ))) (content url : String) :
    timeBlocked o content url = true
      ↔ ∃ tr, o = some tr ∧ tr ≠ [] ∧
          ∃ latest, (extractYears url content).max? = some latest ∧
            ((∃ s, trLookup tr "start_year" = some s ∧ s ≠ 0 ∧ latest < s) ∨
             (∃ e, trLookup tr "end_year" = some e ∧ e ≠ 0 ∧ e < latest)) := by
  cases o with
  | none => simp [timeBlocked]
  | some tr =>
      by_cases htr : tr = []
      · simp [timeBlocked, htr]
      · cases hy : (extractYears url content).max? with
        | none => simp [timeBlocked, htr, hy]
        | some latest =>
            simp [timeBlocked, htr, hy, boundLt_iff, boundGt_iff]

theorem passesConstraints_false_iff (c : EvidenceConstraints) (st content url : String) :
    passesConstraints c st content url = false
      ↔ (stBlocked c.source_types st = true ∨ timeBlocked c.time_range content url = true) := by
  unfold passesConstraints
  by_cases h1 : stBlocked c.source_types st = true <;>
    by_cases h2 : timeBlocked c.time_range content url = true <;>
      simp [h1, h2]

/-- C7 amended: an item is dropped exactly when source_types is present and
non-empty and excludes its inferred source type, or when time_range is
present and non-empty, a 4-digit year token occurs in url + the first 500
characters of content, and the latest such year violates a present non-zero
start or end bound; an item with no year token passes the time check.  In
particular "blog" is excluded under source_types restricted to
peer_reviewed. -/
theorem C7_constraint_filter :
    (∀ (c : EvidenceConstraints) (sourceType content url : String),
        passesConstraints c sourceType content url = false
          ↔ ClaimReading.dropAmended c sourceType content url)
    ∧ (∀ content url,
        passesConstraints ⟨some ["peer_reviewed"], none, none⟩ "blog" content url = false) := by
  have main : ∀ (c : EvidenceConstraints) (sourceType content url : String),
      passesConstraints c sourceType content url = false
        ↔ ClaimReading.dropAmended c sourceType content url := by
    intro c st content url
    rw [passesConstraints_false_iff]
    unfold ClaimReading.dropAmended
    exact or_congr (stBlocked_iff c.source_types st)
      (timeBlocked_iff c.time_range content url)
  refine ⟨main, fun content url => ?_⟩
  rw [main]
  exact Or.inl ⟨["peer_reviewed"], rfl, by simp, by simp⟩

/-- Closed instance of C7: a blog item under a peer_reviewed-only
source_types constraint is dropped. -/
theorem C7_constraint_filter_witness :
    passesConstraints ⟨some ["peer_reviewed"], none, none⟩ "blog" "c" "u" = false :=
  (C7_constraint_filter.1 ⟨some ["peer_reviewed"], none, none⟩ "blog" "c" "u").mpr
    (Or.inl ⟨["peer_reviewed"], rfl, by simp, by simp⟩)

theorem isNull_encOptStrList_some (l : List String) :
    (encOptStrList (some l)).isNull = false := rfl

theorem isNull_encOptIntDict_some (d : List (String × ℤ)) :
    (encOptIntDict (some d)).isNull = false := rfl

theorem isNull_encOptStr_some (s : String) :
    (encOptStr (some s)).isNull = false := rfl

theorem dictSet_enc_st (x y z v : Json) :
    dictSet [("source_types", x), ("time_range", y), ("quality", z)] "source_types" v
      = [("source_types", v), ("time_range", y), ("quality", z)] := by
  simp [dictSet]

theorem dictSet_enc_tr (x y z v : Json) :
    dictSet [("source_types", x), ("time_range", y), ("quality", z)] "time_range" v
      = [("source_types", x), ("time_range", v), ("quality", z)] := by
  simp [dictSet]

theorem dictSet_enc_q (x y z v : Json) :
    dictSet [("source_types", x), ("time_range", y), ("quality", z)] "quality" v
      = [("source_types", x), ("time_range", y), ("quality", v)] := by
  simp [dictSet]

/-- C9: _merge_constraints is override-merge over the three fields.  With a
present base and no override dict (or an empty one, both falsy) it returns
a fresh copy of the base; with a well-typed override dict it returns a new
record whose every field is the override's value when that field is present
(non-null) in the override and the base's value otherwise.  The base is
never mutated: the embedding is a pure function and the result is a new
record built from base.model_dump(). -/
theorem C9_merge_constraints :
    (∀ (b : EvidenceConstraints), mergeConstraints (some b) none = Except.ok (some b))
    ∧ (∀ (b : EvidenceConstraints) (st : Option (List String))
        (tr : Option (List (String × ℤ))) (q : Option String),
        mergeConstraints (some b) (some (encodeOverride st tr q))
          = Except.ok (some
              ⟨(match st with | some l => some l | none => b.source_types),
               (match tr with | some d => some d | none => b.time_range),
               (match q with | some s => some s | none => b.quality)⟩)) := by
  constructor
  · intro b
    simp only [mergeConstraints, Option.isNone_some, Bool.false_and, Bool.false_eq_true,
      if_false, Option.getD_none, List.foldl_nil, dumpConstraints, validateConstraints_enc]
  · intro b st tr q
    cases st <;> cases tr <;> cases q <;>
      simp only [mergeConstraints, encodeOverride, dumpConstraints, Option.isNone_some,
        Bool.false_and, Bool.false_eq_true, if_false, Option.getD_some, List.nil_append,
        List.cons_append, List.append_nil, List.foldl_cons, List.foldl_nil,
        isNull_encOptStrList_some, isNull_encOptIntDict_some, isNull_encOptStr_some,
        Bool.false_eq_true, if_false, dictSet_enc_st, dictSet_enc_tr, dictSet_enc_q,
        validateConstraints_enc]

/-- Closed instance of C9: override replaces source_types, base keeps
time_range and quality. -/
theorem C9_merge_constraints_witness :
    mergeConstraints (some ⟨some ["news"], none, some "high"⟩)
        (some (encodeOverride (some ["blog"]) none none))
      = Except.ok (some ⟨some ["blog"], none, some "high"⟩) :=
  C9_merge_constraints.2 ⟨some ["news"], none, some "high"⟩ (some ["blog"]) none none

/-- C10: run never raises on a constraints dict (valid JSON) that fails
EvidenceConstraints validation — _to_constraints swallows the error and
returns None, so the TaskSpec built by run is the one it would build with
no constraints at all; at the CLI only a constraints string that fails
json.loads is fatal. -/
theorem C10_invalid_constraints_ignored :
    (∀ (kvs : List (String × Json)), kvs ≠ [] → validateConstraints kvs = none →
        ∀ (q : String),
          toConstraints (some (Json.obj kvs)) = none
          ∧ mkTask q (some (Json.obj kvs)) = mkTask q none)
    ∧ (∀ j, isOkE (mainConstraints (some (some j))) = true)
    ∧ isOkE (mainConstraints (some none)) = false
    ∧ isOkE (mainConstraints none) = true := by
  refine ⟨?_, fun j => rfl, rfl, rfl⟩
  intro kvs hne hval q
  have htoJ : toConstraintsJ (Json.obj kvs) = none := by
    simp [toConstraintsJ, List.isEmpty_iff, hne, hval]
  have hto : toConstraints (some (Json.obj kvs)) = none := by
    simp [toConstraints, htoJ]
  exact ⟨hto, by simp [mkTask, toConstraints, htoJ]⟩

/-- Closed instance of C10: a source_types of the wrong type (a number) is
swallowed and the task is built as if no constraints were supplied. -/
theorem C10_invalid_constraints_ignored_witness :
    toConstraints (some (Json.obj [("source_types", Json.num 5)])) = none
    ∧ mkTask "q" (some (Json.obj [("source_types", Json.num 5)])) = mkTask "q" none :=
  C10_invalid_constraints_ignored.1 [("source_types", Json.num 5)] (by simp)
    (by with_unfolding_all rfl) "q"

/-- C8: with no findings both metrics are 0.0; otherwise coverage is the
rounded fraction of findings whose claim confidence reaches the plan's
threshold and average_confidence the rounded mean of the confidences; on
confidences 0.8, 0.4, 0.9 with threshold 0.65 this gives 0.667 and 0.7. -/
theorem C8_metrics :
    (∀ plan, metricsOf [] plan = (0, 0)) ∧
    (∀ findings plan, findings ≠ [] →
      metricsOf findings plan =
        (round3 (((findings.filter
              (fun f => decide (plan.confidence_threshold ≤ f.claim.confidence))).length : ℚ)
            / (findings.length : ℚ)),
         round3 ((findings.map (fun f => f.claim.confidence)).sum / (findings.length : ℚ)))) ∧
    metricsOf [⟨"a", ⟨"", [], "", 8/10⟩⟩, ⟨"b", ⟨"", [], "", 4/10⟩⟩, ⟨"c", ⟨"", [], "", 9/10⟩⟩]
        ⟨[], [], 2, 65/100, none⟩ = (667/1000, 7/10) := by
  refine ⟨fun plan => by simp [metricsOf], ?_, by with_unfolding_all rfl⟩
  intro findings plan hne
  unfold metricsOf
  rw [if_neg hne]
  dsimp only
  have hmax : max (findings.map (fun f => f.claim.confidence)).length 1
      = findings.length := by
    rcases findings with _ | ⟨f, t⟩
    · exact absurd rfl hne
    · simp [Nat.max_eq_left, Nat.succ_le_succ]
  have hcount : ((findings.map (fun f => f.claim.confidence)).filter
        (fun c => decide (plan.confidence_threshold ≤ c))).length
      = (findings.filter
          (fun f => decide (plan.confidence_threshold ≤ f.claim.confidence))).length := by
    simp only [← List.countP_eq_length_filter, List.countP_map]
    rfl
  rw [hmax, hcount]

/-- Closed instance of C8's conditional part, at a one-element findings
list. -/
theorem C8_metrics_witness :
    metricsOf [⟨"s", ⟨"t", [], "", 1⟩⟩] ⟨[], [], 2, 65/100, none⟩ = (1, 1) := by
  have h := C8_metrics.2.1 [⟨"s", ⟨"t", [], "", 1⟩⟩] ⟨[], [], 2, 65/100, none⟩ (by simp)
  rw [h]
  with_unfolding_all rfl

end DeepResearchAgent

end DeepResearch
